import Mathlib

/-!
A verification development for the clipboard-manager background engine
(`src/background/background.js` and its duplicated variant).

Strings of the JavaScript source are modelled as Lean `String`s; where the
algorithms walk over the characters the model works on `String.data`, the
underlying `List Char`.  Timestamps (`Date.now()`) and generated ids
(`generateId()`) are external inputs of each operation, so every operation
takes the fresh id and the current time as explicit parameters.
`chrome.runtime.sendMessage` broadcasts are modelled as the list of message
action identifiers an operation emits; persistence (`saveClipboardData`) has
no effect on the in-memory state and is not modelled.
-/

namespace ClipboardManager

/-- The four content categories returned by `categorizeContent`. -/
inductive Category where
  | text
  | url
  | code
  | image
deriving Repr, DecidableEq

/-- The JavaScript white-space class: the characters matched by `\s` in a
JS regular expression, which is also exactly the set removed by
`String.prototype.trim`. -/
def isJsWs (c : Char) : Bool :=
  c = ' ' || c = '\t' || c = '\n' || c = '\x0d' || c = '\x0b' || c = '\x0c' ||
  c = ' ' || c = ' ' || (' ' ≤ c && c ≤ ' ') ||
  c = ' ' || c = ' ' || c = ' ' || c = ' ' ||
  c = '　' || c = '﻿'

/-- `content.trim()` of JavaScript, on the character list. -/
def trimL (l : List Char) : List Char :=
  ((l.dropWhile isJsWs).reverse.dropWhile isJsWs).reverse

/-- A character matched by `.` in a JS regex (anything but a line terminator). -/
def jsDot (c : Char) : Bool :=
  !(c = '\n' || c = '\x0d' || c = ' ' || c = ' ')

/-- A character matched by the class `[^\s/$.?#]` of the URL regex. -/
def urlHeadChar (c : Char) : Bool :=
  !(isJsWs c || c = '/' || c = '$' || c = '.' || c = '?' || c = '#')

/-- Case-insensitive prefix dispatch of the URL regex alternation
`(https?:\/\/|www\.)`: if the (already trimmed) content starts with one of
the three literal prefixes, return the remaining characters. -/
def urlRest? (l : List Char) : Option (List Char) :=
  let low := l.map Char.toLower
  if "https://".data.isPrefixOf low then some (l.drop 8)
  else if "http://".data.isPrefixOf low then some (l.drop 7)
  else if "www.".data.isPrefixOf low then some (l.drop 4)
  else none

/-- `urlRegex.test(content.trim())` for
`/^(https?:\/\/|www\.)[^\s/$.?#].[^\s]*$/i`: after one of the three prefixes
there must be a character outside `[\s/$.?#]`, then one character that is not
a line terminator, then only non-white-space characters up to the end. -/
def urlTest (l : List Char) : Bool :=
  match urlRest? l with
  | none => false
  | some r =>
    match r with
    | c1 :: c2 :: rest => urlHeadChar c1 && jsDot c2 && rest.all (fun c => !isJsWs c)
    | _ => false

/-- `haystack.includes(needle)` of JavaScript on character lists. -/
def hasSub : List Char → List Char → Bool
  | [], p => p.isEmpty
  | s@(_ :: t), p => p.isPrefixOf s || hasSub t p

/-- The fixed list of code-indicator substrings of `categorizeContent`. -/
def codeIndicators : List (List Char) :=
  ["\x7b".data, "\x7d".data, "()".data, "=>".data, ";".data,
   "function".data, "class".data, "const".data, "let".data, "var".data,
   "if".data, "else".data, "for".data, "while".data, "switch".data,
   "import".data, "export".data, "return".data, "async".data, "await".data,
   "<div".data, "<span".data, "<p".data, "<a".data,
   "</div>".data, "</span>".data, "</p>".data, "</a>".data,
   "/*".data, "*/".data, "//".data, "#include".data, "def ".data,
   "public".data, "private".data, "protected".data]

/-- `content.split('\n')` of JavaScript. -/
def splitNl : List Char → List (List Char)
  | [] => [[]]
  | c :: t =>
    let r := splitNl t
    if c = '\n' then [] :: r
    else
      match r with
      | [] => [[c]]
      | h :: rs => (c :: h) :: rs

/-- A line counted as indented by `categorizeContent`: it starts with two
spaces or with a tab. -/
def isIndented (line : List Char) : Bool :=
  "  ".data.isPrefixOf line || "\t".data.isPrefixOf line

/-- Number of code indicators occurring in the content. -/
def indicatorCount (l : List Char) : Nat :=
  (codeIndicators.filter (fun p => hasSub l p)).length

/-- The code heuristic of `categorizeContent`: at least three indicator
substrings occur, or there are more than three lines of which more than one
is indented. -/
def codeTest (l : List Char) : Bool :=
  let lines := splitNl l
  decide (indicatorCount l ≥ 3) ||
    (decide (lines.length > 3) && decide ((lines.filter isIndented).length > 1))

/-- `categorizeContent` of `background.js` on the character list: blank
content is text; a `data:image/` data URL is an image; then the URL regex is
tried on the trimmed content; then the code heuristic; otherwise text. -/
def categorizeL (l : List Char) : Category :=
  if (trimL l).isEmpty then .text
  else if "data:image/".data.isPrefixOf l then .image
  else if urlTest (trimL l) then .url
  else if codeTest l then .code
  else .text

/-- `categorizeContent(content)` of `background.js`. -/
def categorizeContent (content : String) : Category :=
  categorizeL content.data

/-- A clipboard history item, as created by the background script.  The
`charCount` field stores the character count for text and the rounded size
in KB for images. -/
structure Item where
  id : String
  content : String
  type : Category
  timestamp : Nat
  isFavorite : Bool
  charCount : Nat
deriving Repr, DecidableEq

/-- The `clipboardData` module state: the history and the favorites cache. -/
structure ClipboardData where
  items : List Item
  favorites : List Item
deriving Repr, DecidableEq

/-- The mutable settings variables of the background script. -/
structure Settings where
  maxHistoryItems : Nat
  maxTextLength : Nat
  maxImageSize : Nat
deriving Repr, DecidableEq

/-- The default values of the settings variables
(`MAX_HISTORY_ITEMS = 100`, `maxTextLength = 10000`, `maxImageSize = 1000`). -/
def defaultSettings : Settings := ⟨100, 10000, 1000⟩

/-- The engine state the mutation operations read and write:
the clipboard data, the `lastClipboardText` reference, and the settings. -/
structure EngineState where
  clip : ClipboardData
  lastClipboardText : String
  settings : Settings
deriving Repr, DecidableEq

/-- The initial module state: empty history, empty `lastClipboardText`. -/
def initState (s : Settings) : EngineState :=
  ⟨⟨[], []⟩, "", s⟩

/-- Outcome of a capture-path submission (`processClipboardContent` /
`processClipboardImage`). -/
inductive CaptureOutcome where
  | skippedEmpty
  | skippedInvalid
  | skippedDuplicate
  | rejectedTooLarge
  | committed (item : Item)
deriving Repr, DecidableEq

/-- `findIndex` on content followed by `splice(index, 1)` (guarded by
`index !== -1`): remove the first item whose content equals `c`. -/
def eraseFirstContent (c : String) : List Item → List Item
  | [] => []
  | it :: t => if it.content = c then t else it :: eraseFirstContent c t

/-- The history-size trim applied after each insertion:
`if (items.length > maxItems) items = items.slice(0, maxItems)`. -/
def trimItems (maxItems : Nat) (l : List Item) : List Item :=
  if l.length > maxItems then l.take maxItems else l

/-- `processClipboardContent(content)`: skip blank content, skip an exact
repeat of `lastClipboardText`, reject over-length content with a warning
notification, otherwise record `lastClipboardText`, remove an existing item
with the same content, insert the fresh item at the top, trim, and broadcast
under three message identifiers.  Returns the new state, the outcome, and
the list of `chrome.runtime.sendMessage` action identifiers sent. -/
def processClipboardContent (st : EngineState) (content : String)
    (newId : String) (now : Nat) : EngineState × CaptureOutcome × List String :=
  if (trimL content.data).isEmpty then (st, .skippedEmpty, [])
  else if content = st.lastClipboardText then (st, .skippedDuplicate, [])
  else if content.length > st.settings.maxTextLength then
    (st, .rejectedTooLarge, ["showNotification"])
  else
    ({ st with
        clip := { st.clip with items :=
          (trimItems st.settings.maxHistoryItems
            (⟨newId, content, categorizeContent content, now, false,
              content.length⟩ :: eraseFirstContent content st.clip.items)) },
        lastClipboardText := content },
     .committed ⟨newId, content, categorizeContent content, now, false, content.length⟩,
     ["clipboardDataUpdated", "clipboardUpdated", "refreshClipboardData"])

/-- Rounded size in KB: `Math.round(dataUrl.length / 1024)`. -/
def imageSizeKB (len : Nat) : Nat :=
  (len + 512) / 1024

/-- `processClipboardImage(dataUrl)`: skip content that is not an image data
URL, skip a data URL already present in the history, reject an over-size
image with a warning notification, otherwise insert the fresh image item at
the top, trim, and notify under the single `clipboardDataUpdated`
identifier. -/
def processClipboardImage (st : EngineState) (dataUrl : String)
    (newId : String) (now : Nat) : EngineState × CaptureOutcome × List String :=
  if !("data:image/".data.isPrefixOf dataUrl.data) then (st, .skippedInvalid, [])
  else if st.clip.items.any (fun it => it.content == dataUrl) then
    (st, .skippedDuplicate, [])
  else if imageSizeKB dataUrl.length > st.settings.maxImageSize then
    (st, .rejectedTooLarge, ["showNotification"])
  else
    ({ st with clip := { st.clip with items :=
        (trimItems st.settings.maxHistoryItems
          (⟨newId, dataUrl, .image, now, false, imageSizeKB dataUrl.length⟩ ::
            st.clip.items)) } },
     .committed ⟨newId, dataUrl, .image, now, false, imageSizeKB dataUrl.length⟩,
     ["clipboardDataUpdated"])

/-- `handleAddNewItem(item)`: build the fresh item (category from the caller
or from the classifier, favorite flag from the caller), insert it at the top
of the history (and of the favorites when marked favorite), trim the
history, and return the item.  No duplicate check, no size check, and no
broadcast message is sent. -/
def handleAddNewItem (st : EngineState) (content : String) (typ : Option Category)
    (fav : Bool) (newId : String) (now : Nat) : EngineState × Item × List String :=
  ({ st with clip :=
      ⟨trimItems st.settings.maxHistoryItems
        (⟨newId, content, typ.getD (categorizeContent content), now, fav,
          content.length⟩ :: st.clip.items),
       if fav then
         ⟨newId, content, typ.getD (categorizeContent content), now, fav,
           content.length⟩ :: st.clip.favorites
       else st.clip.favorites⟩ },
   ⟨newId, content, typ.getD (categorizeContent content), now, fav, content.length⟩,
   [])

/-- Flip the favorite flag of the first item with the given id
(`items[itemIndex].isFavorite = !items[itemIndex].isFavorite`). -/
def flipFirstFav (itemId : String) : List Item → List Item
  | [] => []
  | it :: t =>
    if it.id = itemId then { it with isFavorite := !it.isFavorite } :: t
    else it :: flipFirstFav itemId t

/-- `handleToggleFavorite(itemId)`: if the id is present, flip its flag and
recompute `favorites = items.filter(isFavorite)`; return `false` otherwise.
No broadcast message is sent. -/
def handleToggleFavorite (st : EngineState) (itemId : String) :
    EngineState × Bool × List String :=
  if st.clip.items.any (fun it => it.id == itemId) then
    ({ st with clip := ⟨flipFirstFav itemId st.clip.items,
        (flipFirstFav itemId st.clip.items).filter (fun it => it.isFavorite)⟩ },
     true, [])
  else (st, false, [])

/-- `handleDeleteItem(itemId)`: filter the id out of both lists.  Always
returns `true`; no broadcast message is sent. -/
def handleDeleteItem (st : EngineState) (itemId : String) :
    EngineState × Bool × List String :=
  ({ st with clip := ⟨st.clip.items.filter (fun it => it.id != itemId),
                      st.clip.favorites.filter (fun it => it.id != itemId)⟩ },
   true, [])

/-- `handleClearAll()`: reset both lists.  No broadcast message is sent. -/
def handleClearAll (st : EngineState) : EngineState × Bool × List String :=
  ({ st with clip := ⟨[], []⟩ }, true, [])

/-- Result of `handleDeleteMultipleItems`. -/
structure DeleteManyResult where
  success : Bool
  deletedCount : Nat
deriving Repr, DecidableEq

/-- `handleDeleteMultipleItems(itemIds)`: an empty request is an error;
otherwise both lists are filtered by membership of the id in the request,
one `clipboardDataUpdated` message is sent, and the returned `deletedCount`
is `itemIds.length` — the number of ids requested. -/
def handleDeleteMultipleItems (st : EngineState) (itemIds : List String) :
    EngineState × DeleteManyResult × List String :=
  if itemIds.isEmpty then (st, ⟨false, 0⟩, [])
  else
    ({ st with clip := ⟨st.clip.items.filter (fun it => !(itemIds.contains it.id)),
                        st.clip.favorites.filter (fun it => !(itemIds.contains it.id))⟩ },
     ⟨true, itemIds.length⟩, ["clipboardDataUpdated"])

/-- Find-and-remove by id, `findIndex` followed by `splice(index, 1)`:
returns the first item with the given id together with the remaining list. -/
def extractFirstById (itemId : String) : List Item → Option (Item × List Item)
  | [] => none
  | it :: t =>
    if it.id = itemId then some (it, t)
    else
      match extractFirstById itemId t with
      | some (x, r) => some (x, it :: r)
      | none => none

/-- `handleMoveItemToTop(itemId)`: an absent id throws (caught, `false`); an
item already at index 0 returns `true` without any change; otherwise the
item is moved to the front and its timestamp set to the current time.  The
moved JS object is aliased by the `favorites` array, so the in-place
timestamp write is modelled by updating the entry with that id in
`favorites` as well.  One `clipboardDataUpdated` message is sent. -/
def handleMoveItemToTop (st : EngineState) (itemId : String) (now : Nat) :
    EngineState × Bool × List String :=
  match st.clip.items with
  | [] => (st, false, [])
  | it0 :: t =>
    if it0.id = itemId then (st, true, [])
    else
      match extractFirstById itemId (it0 :: t) with
      | none => (st, false, [])
      | some (x, rest) =>
        ({ st with clip := ⟨{ x with timestamp := now } :: rest,
            st.clip.favorites.map
              (fun f => if f.id = itemId then { f with timestamp := now } else f)⟩ },
         true, ["clipboardDataUpdated"])

/-- The settings fields carried by a `settingsUpdated` message. -/
structure SettingsMsg where
  maxItems : Nat
  maxTextLength : Nat
  maxImageSize : Nat
deriving Repr, DecidableEq

/-- The `settingsUpdated` branch of the message listener: each settings
variable is replaced by the message value, with the JS `||`-default applied
to a falsy (zero) value.  The history is not re-trimmed. -/
def applySettingsUpdate (st : EngineState) (msg : SettingsMsg) : EngineState :=
  { st with settings :=
      ⟨if msg.maxItems = 0 then 50 else msg.maxItems,
       if msg.maxTextLength = 0 then 10000 else msg.maxTextLength,
       if msg.maxImageSize = 0 then 1000 else msg.maxImageSize⟩ }

/-- One public mutation of the engine, with its external inputs (fresh id,
current time) attached. -/
inductive Mutation where
  | capture (content newId : String) (now : Nat)
  | captureImage (dataUrl newId : String) (now : Nat)
  | addItem (content : String) (typ : Option Category) (fav : Bool)
      (newId : String) (now : Nat)
  | toggleFavorite (itemId : String)
  | deleteItem (itemId : String)
  | deleteMany (itemIds : List String)
  | moveToTop (itemId : String) (now : Nat)
  | clearAll
  | settingsUpdated (msg : SettingsMsg)

/-- Whether a mutation is the manual-add gateway operation. -/
def Mutation.isManualAdd : Mutation → Bool
  | .addItem _ _ _ _ _ => true
  | _ => false

/-- The state reached after one mutation. -/
def step (st : EngineState) : Mutation → EngineState
  | .capture content newId now => (processClipboardContent st content newId now).1
  | .captureImage dataUrl newId now => (processClipboardImage st dataUrl newId now).1
  | .addItem content typ fav newId now =>
      (handleAddNewItem st content typ fav newId now).1
  | .toggleFavorite itemId => (handleToggleFavorite st itemId).1
  | .deleteItem itemId => (handleDeleteItem st itemId).1
  | .deleteMany itemIds => (handleDeleteMultipleItems st itemIds).1
  | .moveToTop itemId now => (handleMoveItemToTop st itemId now).1
  | .clearAll => (handleClearAll st).1
  | .settingsUpdated msg => applySettingsUpdate st msg

/-- The state reached after a sequence of mutations. -/
def runMutations (st : EngineState) (ms : List Mutation) : EngineState :=
  ms.foldl step st

/-- The content-uniqueness invariant of the spec: the contents of the
history items are pairwise distinct. -/
def ContentUnique (st : EngineState) : Prop :=
  (st.clip.items.map (fun it => it.content)).Nodup

/-- The favorites-is-a-derived-view invariant of the spec, as membership:
an item is in `favorites` exactly when it is in `items` with its favorite
flag set. -/
def DerivedFav (st : EngineState) : Prop :=
  ∀ i : Item, i ∈ st.clip.favorites ↔ (i ∈ st.clip.items ∧ i.isFavorite = true)

/-- The capture guard of `src/src/background/background.js`: a plain
boolean.  Entry to `checkClipboardForChanges` returns immediately while the
guard is set, with no staleness recovery; a free entry sets the guard.
Returns whether the check proceeds and the guard value after entry. -/
def guardEntryMain (g : Bool) : Bool × Bool :=
  if g then (false, g) else (true, true)

/-- The capture guard of the duplicated engine variant (`part_004`):
`isProcessingClipboard` holds the start time of the in-flight check.  An
entry while a check has been in flight for more than 10000 ms force-clears
the guard and proceeds; within the threshold the entry returns; a free entry
records the start time. -/
def guardEntryTimed : Option Nat → Nat → Bool × Option Nat
  | none, now => (true, some now)
  | some t, now => if now - t > 10000 then (true, some now) else (false, some t)

/-! ### Supporting lemmas -/

lemma trimItems_length_le (m : Nat) (l : List Item) :
    (trimItems m l).length ≤ m := by
  unfold trimItems
  split
  · simp
  · omega

lemma trimItems_sublist (m : Nat) (l : List Item) :
    List.Sublist (trimItems m l) l := by
  unfold trimItems
  split
  · exact List.take_sublist m l
  · exact List.Sublist.refl l

lemma trimItems_eq_of_le {m : Nat} {l : List Item} (h : l.length ≤ m) :
    trimItems m l = l := by
  unfold trimItems
  split
  · omega
  · rfl

lemma eraseFirstContent_sublist (c : String) (l : List Item) :
    List.Sublist (eraseFirstContent c l) l := by
  induction l with
  | nil => simp [eraseFirstContent]
  | cons it t ih =>
    simp only [eraseFirstContent]
    split
    · exact List.Sublist.cons it (List.Sublist.refl t)
    · exact ih.cons₂ it

lemma content_not_mem_eraseFirst {c : String} {l : List Item}
    (h : (l.map (fun it => it.content)).Nodup) :
    c ∉ (eraseFirstContent c l).map (fun it => it.content) := by
  induction l with
  | nil => simp [eraseFirstContent]
  | cons it t ih =>
    simp only [List.map_cons, List.nodup_cons] at h
    simp only [eraseFirstContent]
    split
    · rename_i hc
      exact hc ▸ h.1
    · rename_i hc
      simp only [List.map_cons, List.mem_cons, not_or]
      exact ⟨fun h' => hc h'.symm, ih h.2⟩

lemma not_mem_eraseFirst_of_count_eq_one {c : String} {l : List Item}
    (h : (l.map (fun it => it.content)).count c = 1) :
    c ∉ (eraseFirstContent c l).map (fun it => it.content) := by
  induction l with
  | nil => simp [eraseFirstContent]
  | cons it t ih =>
    simp only [eraseFirstContent]
    split
    · rename_i hc
      rw [List.map_cons, hc, List.count_cons_self] at h
      have h0 : (t.map (fun it => it.content)).count c = 0 := by omega
      exact (List.count_eq_zero.mp h0)
    · rename_i hc
      rw [List.map_cons, List.count_cons_of_ne (fun h' => hc h'.symm)] at h
      simp only [List.map_cons, List.mem_cons, not_or]
      exact ⟨fun h' => hc h'.symm, ih h⟩

lemma eraseFirst_length_of_count_eq_one {c : String} {l : List Item}
    (h : (l.map (fun it => it.content)).count c = 1) :
    (eraseFirstContent c l).length + 1 = l.length := by
  induction l with
  | nil => simp at h
  | cons it t ih =>
    simp only [eraseFirstContent]
    split
    · simp
    · rename_i hc
      rw [List.map_cons, List.count_cons_of_ne (fun h' => hc h'.symm)] at h
      simpa using ih h

lemma map_content_flipFirstFav (itemId : String) (l : List Item) :
    (flipFirstFav itemId l).map (fun it => it.content) =
      l.map (fun it => it.content) := by
  induction l with
  | nil => rfl
  | cons it t ih =>
    simp only [flipFirstFav]
    split
    · rfl
    · simpa using ih

lemma extractFirstById_spec {itemId : String} {l : List Item} {x : Item}
    {rest : List Item} (h : extractFirstById itemId l = some (x, rest)) :
    x.id = itemId ∧ ∃ l1 l2, l = l1 ++ x :: l2 ∧ rest = l1 ++ l2 ∧
      ∀ y ∈ l1, y.id ≠ itemId := by
  induction l generalizing x rest with
  | nil => simp [extractFirstById] at h
  | cons it t ih =>
    simp only [extractFirstById] at h
    split at h
    · rename_i hid
      obtain ⟨rfl, rfl⟩ : it = x ∧ t = rest := by
        simpa using h
      exact ⟨hid, [], t, rfl, rfl, by simp⟩
    · rename_i hid
      cases heq : extractFirstById itemId t with
      | none => rw [heq] at h; simp at h
      | some p =>
        obtain ⟨x', r'⟩ := p
        rw [heq] at h
        obtain ⟨rfl, rfl⟩ : x' = x ∧ it :: r' = rest := by
          simpa using h
        obtain ⟨hx, l1, l2, hl, hr, hl1⟩ := ih heq
        refine ⟨hx, it :: l1, l2, by simp [hl], by simp [hr], ?_⟩
        intro y hy
        rcases List.mem_cons.mp hy with rfl | hy'
        · exact hid
        · exact hl1 y hy'

lemma extractFirstById_perm {itemId : String} {l : List Item} {x : Item}
    {rest : List Item} (h : extractFirstById itemId l = some (x, rest)) :
    (x :: rest).Perm l := by
  obtain ⟨_, l1, l2, hl, hr, _⟩ := extractFirstById_spec h
  rw [hl, hr]
  exact List.perm_middle.symm

/-- Every mutation other than the manual add preserves content uniqueness. -/
lemma contentUnique_step {st : EngineState} {m : Mutation}
    (h : ContentUnique st) (hm : m.isManualAdd = false) :
    ContentUnique (step st m) := by
  unfold ContentUnique at h ⊢
  cases m with
  | capture content newId now =>
    simp only [step, processClipboardContent]
    split
    · exact h
    · split
      · exact h
      · split
        · exact h
        · simp only
          have hsub := (trimItems_sublist st.settings.maxHistoryItems
            (⟨newId, content, categorizeContent content, now, false,
              content.length⟩ :: eraseFirstContent content st.clip.items)).map
            (fun it => it.content)
          refine (hsub.nodup ?_)
          simp only [List.map_cons, List.nodup_cons]
          refine ⟨content_not_mem_eraseFirst h, ?_⟩
          exact ((eraseFirstContent_sublist content st.clip.items).map
            (fun it => it.content)).nodup h
  | captureImage dataUrl newId now =>
    simp only [step, processClipboardImage]
    split
    · exact h
    · split
      · exact h
      · split
        · exact h
        · rename_i hnodup hdup hsize
          simp only
          refine ((trimItems_sublist _ _).map (fun it => it.content)).nodup ?_
          simp only [List.map_cons, List.nodup_cons]
          refine ⟨?_, h⟩
          intro hmem
          apply hdup
          simp only [List.any_eq_true, beq_iff_eq]
          obtain ⟨it, hit, hc⟩ := List.mem_map.mp hmem
          exact ⟨it, hit, hc⟩
  | addItem content typ fav newId now => simp [Mutation.isManualAdd] at hm
  | toggleFavorite itemId =>
    simp only [step, handleToggleFavorite]
    split
    · simpa [map_content_flipFirstFav] using h
    · exact h
  | deleteItem itemId =>
    simp only [step, handleDeleteItem]
    have hs : List.Sublist (st.clip.items.filter (fun it => it.id != itemId))
        st.clip.items := List.filter_sublist _
    exact (hs.map (fun it => it.content)).nodup h
  | deleteMany itemIds =>
    simp only [step, handleDeleteMultipleItems]
    split
    · exact h
    · have hs : List.Sublist (st.clip.items.filter (fun it => !(itemIds.contains it.id)))
          st.clip.items := List.filter_sublist _
      exact (hs.map (fun it => it.content)).nodup h
  | moveToTop itemId now =>
    obtain ⟨⟨items, favs⟩, last, sett⟩ := st
    simp only [step, handleMoveItemToTop]
    cases items with
    | nil => exact h
    | cons it0 t =>
      simp only
      split
      · exact h
      · cases heq : extractFirstById itemId (it0 :: t) with
        | none => simpa [heq] using h
        | some p =>
          obtain ⟨x, rest⟩ := p
          simp only [heq]
          have hperm := (extractFirstById_perm heq).map (fun it => it.content)
          have hnd := hperm.symm.nodup h
          simpa using hnd
  | clearAll => simp [step, handleClearAll]
  | settingsUpdated msg => simpa [step, applySettingsUpdate] using h

/-- Running a list of mutations preserves content uniqueness when no manual
add occurs in it. -/
lemma contentUnique_runMutations {st : EngineState} {ms : List Mutation}
    (h : ContentUnique st) (hms : ∀ m ∈ ms, m.isManualAdd = false) :
    ContentUnique (runMutations st ms) := by
  induction ms generalizing st with
  | nil => exact h
  | cons m t ih =>
    exact ih (contentUnique_step h (hms m (List.mem_cons_self m t)))
      (fun m' hm' => hms m' (List.mem_cons_of_mem m hm'))

/-- Claim C1, amended.  Content uniqueness is an invariant of every state
reachable by sequences of mutations that avoid the manual-add gateway: the
capture commit deduplicates by content, and the remaining operations only
remove, reorder or reflag items.  (`handleAddNewItem` itself performs no
duplicate check and breaks the invariant; see the counterexample.) -/
theorem C1_theorem (s : Settings) (ms : List Mutation)
    (hms : ∀ m ∈ ms, m.isManualAdd = false) :
    ContentUnique (runMutations (initState s) ms) :=
  contentUnique_runMutations (by simp [ContentUnique, initState]) hms

/-- Witness for C1: a concrete manual-add-free run keeps contents unique. -/
theorem C1_witness :
    ContentUnique (runMutations (initState defaultSettings)
      [Mutation.capture "x" "i1" 1, Mutation.capture "x" "i2" 2,
       Mutation.toggleFavorite "i1"]) :=
  C1_theorem defaultSettings _ (by
    intro m hm
    rcases List.mem_cons.mp hm with rfl | hm'
    · rfl
    rcases List.mem_cons.mp hm' with rfl | hm''
    · rfl
    rcases List.mem_cons.mp hm'' with rfl | hm'''
    · rfl
    · simp at hm''')

/-- Counterexample to claim C1 as stated: two manual adds of `"hello"`
through the mutation gateway produce two distinct items with identical
content, so the uniqueness invariant does not hold in every reachable
state. -/
theorem C1_counterexample :
    (⟨"i2", "hello", Category.text, 2, false, 5⟩ : Item) ∈
      (runMutations (initState defaultSettings)
        [Mutation.addItem "hello" none false "i1" 1,
         Mutation.addItem "hello" none false "i2" 2]).clip.items ∧
    (⟨"i1", "hello", Category.text, 1, false, 5⟩ : Item) ∈
      (runMutations (initState defaultSettings)
        [Mutation.addItem "hello" none false "i1" 1,
         Mutation.addItem "hello" none false "i2" 2]).clip.items ∧
    (⟨"i2", "hello", Category.text, 2, false, 5⟩ : Item) ≠
      (⟨"i1", "hello", Category.text, 1, false, 5⟩ : Item) ∧
    (⟨"i2", "hello", Category.text, 2, false, 5⟩ : Item).content =
      (⟨"i1", "hello", Category.text, 1, false, 5⟩ : Item).content ∧
    ¬ ContentUnique (runMutations (initState defaultSettings)
        [Mutation.addItem "hello" none false "i1" 1,
         Mutation.addItem "hello" none false "i2" 2]) := by
  refine ⟨by decide, by decide, by decide, by decide, fun hcu => ?_⟩
  unfold ContentUnique at hcu
  revert hcu
  decide

lemma length_flipFirstFav (itemId : String) (l : List Item) :
    (flipFirstFav itemId l).length = l.length := by
  have := congrArg List.length (map_content_flipFirstFav itemId l)
  simpa using this

lemma moveTop_length (st : EngineState) (itemId : String) (now : Nat) :
    ((handleMoveItemToTop st itemId now).1).clip.items.length =
      st.clip.items.length := by
  obtain ⟨⟨items, favs⟩, last, sett⟩ := st
  simp only [handleMoveItemToTop]
  cases items with
  | nil => rfl
  | cons it0 t =>
    simp only
    split
    · rfl
    · cases heq : extractFirstById itemId (it0 :: t) with
      | none => rfl
      | some p =>
        obtain ⟨x, rest⟩ := p
        have := (extractFirstById_perm heq).length_eq
        simpa using this

/-- Claim C2, amended.  The size bound `count(items) ≤ maxHistorySize` is
re-established by every mutation that inserts — a committing capture of text
or of an image, and a manual add — with the limit read at that moment; the
non-inserting mutations never increase the count, but they do not re-trim,
so after the limit is lowered at runtime the bound can stay violated until
the next insertion (see the counterexample). -/
theorem C2_theorem :
    (∀ (st : EngineState) (content newId : String) (now : Nat) (it : Item),
      (processClipboardContent st content newId now).2.1 =
          CaptureOutcome.committed it →
      ((processClipboardContent st content newId now).1).clip.items.length ≤
        st.settings.maxHistoryItems) ∧
    (∀ (st : EngineState) (dataUrl newId : String) (now : Nat) (it : Item),
      (processClipboardImage st dataUrl newId now).2.1 =
          CaptureOutcome.committed it →
      ((processClipboardImage st dataUrl newId now).1).clip.items.length ≤
        st.settings.maxHistoryItems) ∧
    (∀ (st : EngineState) (content : String) (typ : Option Category)
        (fav : Bool) (newId : String) (now : Nat),
      ((handleAddNewItem st content typ fav newId now).1).clip.items.length ≤
        st.settings.maxHistoryItems) ∧
    (∀ (st : EngineState) (itemId : String),
      ((handleToggleFavorite st itemId).1).clip.items.length ≤
        st.clip.items.length) ∧
    (∀ (st : EngineState) (itemId : String),
      ((handleDeleteItem st itemId).1).clip.items.length ≤
        st.clip.items.length) ∧
    (∀ (st : EngineState) (itemIds : List String),
      ((handleDeleteMultipleItems st itemIds).1).clip.items.length ≤
        st.clip.items.length) ∧
    (∀ (st : EngineState) (itemId : String) (now : Nat),
      ((handleMoveItemToTop st itemId now).1).clip.items.length ≤
        st.clip.items.length) ∧
    (∀ st : EngineState, ((handleClearAll st).1).clip.items.length = 0) := by
  refine ⟨?_, ?_, ?_, ?_, ?_, ?_, ?_, ?_⟩
  · intro st content newId now it
    simp only [processClipboardContent]
    split
    · intro hc; exact absurd hc (by simp)
    · split
      · intro hc; exact absurd hc (by simp)
      · split
        · intro hc; exact absurd hc (by simp)
        · intro _
          exact trimItems_length_le _ _
  · intro st dataUrl newId now it
    simp only [processClipboardImage]
    split
    · intro hc; exact absurd hc (by simp)
    · split
      · intro hc; exact absurd hc (by simp)
      · split
        · intro hc; exact absurd hc (by simp)
        · intro _
          exact trimItems_length_le _ _
  · intro st content typ fav newId now
    exact trimItems_length_le _ _
  · intro st itemId
    simp only [handleToggleFavorite]
    split
    · simp [length_flipFirstFav]
    · exact Nat.le_refl _
  · intro st itemId
    simpa [handleDeleteItem] using List.length_filter_le _ _
  · intro st itemIds
    simp only [handleDeleteMultipleItems]
    split
    · exact Nat.le_refl _
    · simpa using List.length_filter_le _ _
  · intro st itemId now
    exact Nat.le_of_eq (moveTop_length st itemId now)
  · intro st
    rfl

/-- Witness for C2: a concrete committing capture satisfies the bound. -/
theorem C2_witness :
    ((processClipboardContent (initState defaultSettings) "a" "i1" 1).1).clip.items.length ≤
      (initState defaultSettings).settings.maxHistoryItems :=
  C2_theorem.1 (initState defaultSettings) "a" "i1" 1
    ⟨"i1", "a", Category.text, 1, false, 1⟩ (by decide)

/-- Counterexample to claim C2 as stated: capture two items, lower
`maxHistorySize` to 1 at runtime, then perform a `toggleFavorite`.  The
mutation completes, but the store still holds two items — the bound does not
hold after every mutation. -/
theorem C2_counterexample :
    (runMutations (initState defaultSettings)
      [Mutation.capture "a" "i1" 1, Mutation.capture "b" "i2" 2,
       Mutation.settingsUpdated ⟨1, 10000, 1000⟩,
       Mutation.toggleFavorite "i1"]).clip.items.length = 2 ∧
    (runMutations (initState defaultSettings)
      [Mutation.capture "a" "i1" 1, Mutation.capture "b" "i2" 2,
       Mutation.settingsUpdated ⟨1, 10000, 1000⟩,
       Mutation.toggleFavorite "i1"]).settings.maxHistoryItems = 1 ∧
    ¬ ((runMutations (initState defaultSettings)
      [Mutation.capture "a" "i1" 1, Mutation.capture "b" "i2" 2,
       Mutation.settingsUpdated ⟨1, 10000, 1000⟩,
       Mutation.toggleFavorite "i1"]).clip.items.length ≤
        (runMutations (initState defaultSettings)
          [Mutation.capture "a" "i1" 1, Mutation.capture "b" "i2" 2,
           Mutation.settingsUpdated ⟨1, 10000, 1000⟩,
           Mutation.toggleFavorite "i1"]).settings.maxHistoryItems) := by
  refine ⟨by decide, by decide, by decide⟩

lemma head?_trimItems {m : Nat} (hm : 1 ≤ m) (x : Item) (l : List Item) :
    (trimItems m (x :: l)).head? = some x := by
  unfold trimItems
  split
  · obtain ⟨k, rfl⟩ : ∃ k, m = k + 1 := ⟨m - 1, by omega⟩
    simp [List.take_succ_cons]
  · rfl

/-- Claim C3, amended.  The promote law holds for text content that differs
from `lastClipboardText`: resubmitting content `c` that occurs (once) in the
store removes the old item and commits a fresh non-favorite record with the
new timestamp at index 0, leaving the count unchanged and exactly one item
with content `c`.  An immediate resubmission of the just-captured text
(`c = lastClipboardText`) is skipped without touching the store, so its
timestamp is not refreshed; and a duplicate image is always skipped, never
promoted. -/
theorem C3_theorem :
    (∀ (st : EngineState) (c newId : String) (now : Nat),
      (trimL c.data).isEmpty = false →
      c ≠ st.lastClipboardText →
      c.length ≤ st.settings.maxTextLength →
      (st.clip.items.map (fun it => it.content)).count c = 1 →
      st.clip.items.length ≤ st.settings.maxHistoryItems →
      (processClipboardContent st c newId now).2.1 =
        CaptureOutcome.committed ⟨newId, c, categorizeContent c, now, false, c.length⟩ ∧
      ((processClipboardContent st c newId now).1).clip.items.head? =
        some ⟨newId, c, categorizeContent c, now, false, c.length⟩ ∧
      ((processClipboardContent st c newId now).1).clip.items.length =
        st.clip.items.length ∧
      (((processClipboardContent st c newId now).1).clip.items.map
        (fun it => it.content)).count c = 1) ∧
    (∀ (st : EngineState) (c newId : String) (now : Nat),
      c = st.lastClipboardText →
      (processClipboardContent st c newId now).1 = st) ∧
    (∀ (st : EngineState) (u newId : String) (now : Nat),
      u ∈ st.clip.items.map (fun it => it.content) →
      (processClipboardImage st u newId now).1 = st) := by
  refine ⟨?_, ?_, ?_⟩
  · intro st c newId now h1 h2 h3 h4 h5
    have hlen := eraseFirst_length_of_count_eq_one h4
    have hnm := not_mem_eraseFirst_of_count_eq_one h4
    have hle : (Item.mk newId c (categorizeContent c) now false c.length ::
        eraseFirstContent c st.clip.items).length ≤ st.settings.maxHistoryItems := by
      simp only [List.length_cons]
      omega
    have e1 : ¬ ((trimL c.data).isEmpty = true) := by simp [h1]
    have e3 : ¬ (c.length > st.settings.maxTextLength) := by omega
    unfold processClipboardContent
    rw [if_neg e1, if_neg h2, if_neg e3]
    rw [trimItems_eq_of_le hle]
    refine ⟨rfl, rfl, ?_, ?_⟩
    · simp only [List.length_cons]
      omega
    · simp only [List.map_cons, List.count_cons_self]
      rw [List.count_eq_zero.mpr hnm]
  · intro st c newId now h
    unfold processClipboardContent
    split_ifs with hb
    · rfl
    · rfl
  · intro st u newId now hmem
    obtain ⟨it, hit, hc⟩ := List.mem_map.mp hmem
    have hany : st.clip.items.any (fun it => it.content == u) = true :=
      List.any_eq_true.mpr ⟨it, hit, by simp [hc]⟩
    unfold processClipboardImage
    split_ifs with hinv
    · rfl
    · rfl

/-- Witness for C3: after capturing `"x"` then `"y"`, resubmitting `"x"`
promotes it to index 0 with the fresh timestamp and keeps the count at 2. -/
theorem C3_witness :
    (processClipboardContent (runMutations (initState defaultSettings)
        [Mutation.capture "x" "i1" 1, Mutation.capture "y" "i2" 2]) "x" "i3" 3).2.1 =
      CaptureOutcome.committed ⟨"i3", "x", categorizeContent "x", 3, false,
        ("x" : String).length⟩ ∧
    ((processClipboardContent (runMutations (initState defaultSettings)
        [Mutation.capture "x" "i1" 1, Mutation.capture "y" "i2" 2]) "x" "i3" 3).1).clip.items.head? =
      some ⟨"i3", "x", categorizeContent "x", 3, false, ("x" : String).length⟩ ∧
    ((processClipboardContent (runMutations (initState defaultSettings)
        [Mutation.capture "x" "i1" 1, Mutation.capture "y" "i2" 2]) "x" "i3" 3).1).clip.items.length =
      (runMutations (initState defaultSettings)
        [Mutation.capture "x" "i1" 1, Mutation.capture "y" "i2" 2]).clip.items.length ∧
    (((processClipboardContent (runMutations (initState defaultSettings)
        [Mutation.capture "x" "i1" 1, Mutation.capture "y" "i2" 2]) "x" "i3" 3).1).clip.items.map
      (fun it => it.content)).count "x" = 1 :=
  C3_theorem.1 (runMutations (initState defaultSettings)
      [Mutation.capture "x" "i1" 1, Mutation.capture "y" "i2" 2]) "x" "i3" 3
    (by decide) (by decide) (by decide) (by decide) (by decide)

/-- Counterexample to claim C3 as stated (Scenario B): capture `"hello"`,
then submit `"hello"` again.  The second submission is skipped as an exact
repeat of `lastClipboardText`: no fresh record is created and the stored
timestamp stays at the old value instead of being refreshed. -/
theorem C3_counterexample :
    (processClipboardContent
        ((processClipboardContent (initState defaultSettings) "hello" "i1" 1).1)
        "hello" "i2" 2).2.1 = CaptureOutcome.skippedDuplicate ∧
    (processClipboardContent
        ((processClipboardContent (initState defaultSettings) "hello" "i1" 1).1)
        "hello" "i2" 2).1 =
      (processClipboardContent (initState defaultSettings) "hello" "i1" 1).1 ∧
    ((processClipboardContent
        ((processClipboardContent (initState defaultSettings) "hello" "i1" 1).1)
        "hello" "i2" 2).1).clip.items.map (fun it => it.timestamp) = [1] := by
  refine ⟨by decide, by decide, by decide⟩

/-- Claim C4, amended.  The admission checks are performed before insertion
and are pure on the capture paths only: over-length text (after the blank
and exact-repeat skips) and over-size images are rejected with a warning
notification and no mutation.  The manual-add gateway performs no size
check: it inserts the item at index 0 regardless of the configured
limits. -/
theorem C4_theorem :
    (∀ (st : EngineState) (c newId : String) (now : Nat),
      (trimL c.data).isEmpty = false →
      c ≠ st.lastClipboardText →
      c.length > st.settings.maxTextLength →
      processClipboardContent st c newId now =
        (st, CaptureOutcome.rejectedTooLarge, ["showNotification"])) ∧
    (∀ (st : EngineState) (u newId : String) (now : Nat),
      "data:image/".data.isPrefixOf u.data = true →
      st.clip.items.any (fun it => it.content == u) = false →
      imageSizeKB u.length > st.settings.maxImageSize →
      processClipboardImage st u newId now =
        (st, CaptureOutcome.rejectedTooLarge, ["showNotification"])) ∧
    (∀ (st : EngineState) (c : String) (typ : Option Category) (fav : Bool)
        (newId : String) (now : Nat), 1 ≤ st.settings.maxHistoryItems →
      ((handleAddNewItem st c typ fav newId now).1).clip.items.head? =
        some ⟨newId, c, typ.getD (categorizeContent c), now, fav, c.length⟩) := by
  refine ⟨?_, ?_, ?_⟩
  · intro st c newId now h1 h2 h3
    have e1 : ¬ ((trimL c.data).isEmpty = true) := by simp [h1]
    unfold processClipboardContent
    rw [if_neg e1, if_neg h2, if_pos h3]
  · intro st u newId now h1 h2 h3
    have e1 : ¬ ((!("data:image/".data.isPrefixOf u.data)) = true) := by simp [h1]
    have e2 : ¬ (st.clip.items.any (fun it => it.content == u) = true) := by simp [h2]
    unfold processClipboardImage
    rw [if_neg e1, if_neg e2, if_pos h3]
  · intro st c typ fav newId now hm
    unfold handleAddNewItem
    exact head?_trimItems hm _ _

/-- Witness for C4 (Scenario C): with `maxContentLength = 10`, capturing an
11-character string into the empty store reports rejection and leaves the
store empty. -/
theorem C4_witness :
    processClipboardContent (initState ⟨100, 10, 1000⟩) "12345678901" "i1" 1 =
      (initState ⟨100, 10, 1000⟩, CaptureOutcome.rejectedTooLarge,
        ["showNotification"]) :=
  C4_theorem.1 (initState ⟨100, 10, 1000⟩) "12345678901" "i1" 1
    (by decide) (by decide) (by decide)

/-- Counterexample to claim C4 as stated: with `maxContentLength = 10`, the
manual-add gateway inserts an 11-character string instead of rejecting it —
the store does not remain empty. -/
theorem C4_counterexample :
    ((handleAddNewItem (initState ⟨100, 10, 1000⟩) "12345678901" none false
        "i1" 1).1).clip.items.length = 1 ∧
    ("12345678901" : String).length >
      (initState ⟨100, 10, 1000⟩).settings.maxTextLength := by
  refine ⟨by decide, by decide⟩

lemma dropWhile_append_singleton_ne_nil {p : Char → Bool} {a : Char}
    (ha : p a = false) (l : List Char) : (l ++ [a]).dropWhile p ≠ [] := by
  induction l with
  | nil => simp [List.dropWhile, ha]
  | cons b t ih =>
    by_cases hb : p b
    · simpa [List.dropWhile_cons, hb] using ih
    · simp [List.dropWhile_cons, hb]

lemma trimL_ne_nil_of_head {c : Char} {t : List Char} (hc : isJsWs c = false) :
    trimL (c :: t) ≠ [] := by
  unfold trimL
  rw [List.dropWhile_cons]
  simp only [hc, Bool.false_eq_true, if_false, List.reverse_cons]
  intro hnil
  rw [List.reverse_eq_nil_iff] at hnil
  exact dropWhile_append_singleton_ne_nil hc t.reverse hnil

lemma exists_append_of_isPrefixOf {l1 l2 : List Char}
    (h : l1.isPrefixOf l2 = true) : ∃ t, l2 = l1 ++ t := by
  induction l1 generalizing l2 with
  | nil => exact ⟨l2, rfl⟩
  | cons a t ih =>
    cases l2 with
    | nil => simp [List.isPrefixOf] at h
    | cons b t2 =>
      simp only [List.isPrefixOf, Bool.and_eq_true, beq_iff_eq] at h
      obtain ⟨rfl, h2⟩ := h
      obtain ⟨t3, rfl⟩ := ih h2
      exact ⟨t3, rfl⟩

lemma trimL_ne_nil_of_image {l : List Char}
    (h : "data:image/".data.isPrefixOf l = true) : trimL l ≠ [] := by
  obtain ⟨t, rfl⟩ := exists_append_of_isPrefixOf h
  have hsplit : "data:image/".data ++ t = 'd' :: ("ata:image/".data ++ t) := by
    have hd : "data:image/".data = 'd' :: "ata:image/".data := by decide
    rw [hd]
    rfl
  rw [hsplit]
  exact trimL_ne_nil_of_head (by decide)

/-- Claim C5, amended.  `categorizeContent` is a pure total function decided
by the first matching rule in the fixed order blank → image marker → URL
regex → code heuristic → text, and Scenario D holds.  The URL rule, however,
is the regex, not "no embedded whitespace": the trimmed content must start
(case-insensitively) with `http://`, `https://` or `www.`, followed by a
character that is neither white space nor one of `/ $ . ? #`, then one more
character that is not a line terminator, and no white space afterwards. -/
theorem C5_theorem :
    (∀ c : String, trimL c.data = [] → categorizeContent c = Category.text) ∧
    (∀ c : String, "data:image/".data.isPrefixOf c.data = true →
      categorizeContent c = Category.image) ∧
    (∀ c : String, categorizeContent c = Category.url ↔
      ((trimL c.data).isEmpty = false ∧
        "data:image/".data.isPrefixOf c.data = false ∧
        urlTest (trimL c.data) = true)) ∧
    (∀ c : String, categorizeContent c = Category.code ↔
      ((trimL c.data).isEmpty = false ∧
        "data:image/".data.isPrefixOf c.data = false ∧
        urlTest (trimL c.data) = false ∧ codeTest c.data = true)) ∧
    categorizeContent "https://example.com" = Category.url ∧
    categorizeContent "function f()\x7breturn 1;\x7d" = Category.code ∧
    categorizeContent "" = Category.text := by
  refine ⟨?_, ?_, ?_, ?_, by decide, by decide, by decide⟩
  · intro c h
    unfold categorizeContent categorizeL
    rw [if_pos (by simp [h])]
  · intro c h
    have hne := trimL_ne_nil_of_image h
    unfold categorizeContent categorizeL
    rw [if_neg (by simpa using hne), if_pos h]
  · intro c
    unfold categorizeContent categorizeL
    split_ifs with h1 h2 h3 h4
    · exact iff_of_false (by simp) (fun hr => absurd h1 (by simp [hr.1]))
    · exact iff_of_false (by simp) (fun hr => absurd h2 (by simp [hr.2.1]))
    · exact iff_of_true rfl
        ⟨Bool.eq_false_iff.mpr h1, Bool.eq_false_iff.mpr h2, h3⟩
    · exact iff_of_false (by simp) (fun hr => absurd hr.2.2 h3)
    · exact iff_of_false (by simp) (fun hr => absurd hr.2.2 h3)
  · intro c
    unfold categorizeContent categorizeL
    split_ifs with h1 h2 h3 h4
    · exact iff_of_false (by simp) (fun hr => absurd h1 (by simp [hr.1]))
    · exact iff_of_false (by simp) (fun hr => absurd h2 (by simp [hr.2.1]))
    · exact iff_of_false (by simp) (fun hr => absurd h3 (by simp [hr.2.2.1]))
    · exact iff_of_true rfl
        ⟨Bool.eq_false_iff.mpr h1, Bool.eq_false_iff.mpr h2,
         Bool.eq_false_iff.mpr h3, h4⟩
    · exact iff_of_false (by simp) (fun hr => absurd hr.2.2.2 h4)

/-- Witness for C5: a concrete image data URL is classified as an image. -/
theorem C5_witness :
    categorizeContent "data:image/png;base64,AA" = Category.image :=
  C5_theorem.2.1 "data:image/png;base64,AA" (by decide)

/-- Counterexample to claim C5 as stated: `"https://.com"` has the `https`
scheme and no embedded white space, so the claimed URL rule classifies it as
`url`, but the code classifies it as `text` (the regex requires the
character after the scheme to be outside `/ $ . ? #`). -/
theorem C5_counterexample :
    "https://.com".data.take 8 = "https://".data ∧
    (∀ ch ∈ "https://.com".data, isJsWs ch = false) ∧
    categorizeContent "https://.com" = Category.text := by
  refine ⟨by decide, by decide, by decide⟩

/-- Claim C6, amended.  `favorites` equals the derived view
`items.filter(isFavorite)` after every successful `toggleFavorite` (which
recomputes it), the equality is preserved by `delete` and `deleteMany`
(which filter both lists), and `clear` re-establishes it trivially.  The
insertion paths do not maintain it: promoting an already-favorited content
or evicting a favorited item by the size cap leaves a stale entry in
`favorites`, so the equality is not an invariant of all reachable states
(see the counterexample). -/
theorem C6_theorem :
    (∀ (st : EngineState) (itemId : String),
      (handleToggleFavorite st itemId).2.1 = true →
      DerivedFav (handleToggleFavorite st itemId).1) ∧
    (∀ (st : EngineState) (itemId : String),
      DerivedFav st → DerivedFav (handleDeleteItem st itemId).1) ∧
    (∀ (st : EngineState) (itemIds : List String),
      DerivedFav st → DerivedFav (handleDeleteMultipleItems st itemIds).1) ∧
    (∀ st : EngineState, DerivedFav (handleClearAll st).1) := by
  refine ⟨?_, ?_, ?_, ?_⟩
  · intro st itemId
    unfold handleToggleFavorite
    split
    · intro _
      unfold DerivedFav
      intro i
      simp [List.mem_filter]
    · intro hfalse
      exact absurd hfalse (by simp)
  · intro st itemId h
    unfold DerivedFav at h ⊢
    intro i
    have hi := h i
    simp only [handleDeleteItem, List.mem_filter]
    tauto
  · intro st itemIds h
    unfold DerivedFav at h ⊢
    intro i
    have hi := h i
    unfold handleDeleteMultipleItems
    split
    · exact hi
    · simp only [List.mem_filter]
      tauto
  · intro st
    unfold DerivedFav handleClearAll
    intro i
    simp

/-- Witness for C6: after capturing `"a"`, a successful toggle leaves
`favorites` equal to the derived view. -/
theorem C6_witness :
    DerivedFav (handleToggleFavorite
      (processClipboardContent (initState defaultSettings) "a" "i1" 1).1 "i1").1 :=
  C6_theorem.1 (processClipboardContent (initState defaultSettings) "a" "i1" 1).1
    "i1" (by decide)

/-- Counterexample to claim C6 as stated: manually add `"a"` marked
favorite, then capture `"a"`.  The capture promotes the content by deleting
the favorited item from `items` and inserting a fresh non-favorite record,
but `favorites` keeps the stale entry: `favorites` no longer equals the set
of favorited items. -/
theorem C6_counterexample :
    (runMutations (initState defaultSettings)
      [Mutation.addItem "a" none true "i1" 1,
       Mutation.capture "a" "i2" 2]).clip.favorites.length = 1 ∧
    (runMutations (initState defaultSettings)
      [Mutation.addItem "a" none true "i1" 1,
       Mutation.capture "a" "i2" 2]).clip.items.filter
        (fun it => it.isFavorite) = [] ∧
    ¬ DerivedFav (runMutations (initState defaultSettings)
      [Mutation.addItem "a" none true "i1" 1,
       Mutation.capture "a" "i2" 2]) := by
  refine ⟨by decide, by decide, fun h => ?_⟩
  have hmem := (h ⟨"i1", "a", Category.text, 1, true, 1⟩).1 (by decide)
  revert hmem
  decide

lemma filter_filter_self {α : Type} (p : α → Bool) (l : List α) :
    (l.filter p).filter p = l.filter p := by
  induction l with
  | nil => rfl
  | cons a t ih =>
    by_cases h : p a
    · simp [List.filter_cons, h, ih]
    · simp [List.filter_cons, h, ih]

/-- Claim C7, amended.  `deleteMany` removes exactly the items whose id is
in the request from both `items` and `favorites`, ignores absent ids
(repeating the same request changes nothing), and reports success — but the
returned count is the number of ids requested (`itemIds.length`), not the
number of items actually deleted. -/
theorem C7_theorem :
    (∀ (st : EngineState) (itemIds : List String), itemIds ≠ [] →
      (∀ i : Item, i ∈ ((handleDeleteMultipleItems st itemIds).1).clip.items ↔
        (i ∈ st.clip.items ∧ ¬ i.id ∈ itemIds)) ∧
      (∀ i : Item, i ∈ ((handleDeleteMultipleItems st itemIds).1).clip.favorites ↔
        (i ∈ st.clip.favorites ∧ ¬ i.id ∈ itemIds)) ∧
      (handleDeleteMultipleItems st itemIds).2.1 =
        DeleteManyResult.mk true itemIds.length) ∧
    (∀ (st : EngineState) (itemIds : List String),
      (handleDeleteMultipleItems
        (handleDeleteMultipleItems st itemIds).1 itemIds).1 =
      (handleDeleteMultipleItems st itemIds).1) := by
  constructor
  · intro st itemIds hne
    have hempty : ¬ (itemIds.isEmpty = true) := by
      simpa [List.isEmpty_iff] using hne
    unfold handleDeleteMultipleItems
    rw [if_neg hempty]
    refine ⟨?_, ?_, rfl⟩
    · intro i
      simp [List.mem_filter]
    · intro i
      simp [List.mem_filter]
  · intro st itemIds
    by_cases hids : itemIds.isEmpty
    · simp [handleDeleteMultipleItems, hids]
    · simp [handleDeleteMultipleItems, hids, filter_filter_self]

/-- Witness for C7: deleting ids `["i1", "zz"]` from a store holding only
`"i1"` removes exactly that item from both lists and reports success with
count 2. -/
theorem C7_witness :
    (∀ i : Item, i ∈ ((handleDeleteMultipleItems
        (processClipboardContent (initState defaultSettings) "a" "i1" 1).1
        ["i1", "zz"]).1).clip.items ↔
      (i ∈ ((processClipboardContent (initState defaultSettings) "a" "i1" 1).1).clip.items ∧
        ¬ i.id ∈ ["i1", "zz"])) ∧
    (∀ i : Item, i ∈ ((handleDeleteMultipleItems
        (processClipboardContent (initState defaultSettings) "a" "i1" 1).1
        ["i1", "zz"]).1).clip.favorites ↔
      (i ∈ ((processClipboardContent (initState defaultSettings) "a" "i1" 1).1).clip.favorites ∧
        ¬ i.id ∈ ["i1", "zz"])) ∧
    (handleDeleteMultipleItems
        (processClipboardContent (initState defaultSettings) "a" "i1" 1).1
        ["i1", "zz"]).2.1 = DeleteManyResult.mk true 2 :=
  C7_theorem.1 (processClipboardContent (initState defaultSettings) "a" "i1" 1).1
    ["i1", "zz"] (by decide)

/-- Counterexample to claim C7 as stated: the store holds one item with id
`"i1"`; requesting deletion of `["i1", "zz"]` actually deletes one item but
returns `deletedCount = 2`, the number of ids requested, not the number
deleted. -/
theorem C7_counterexample :
    ((processClipboardContent (initState defaultSettings) "a" "i1" 1).1).clip.items.length = 1 ∧
    ((handleDeleteMultipleItems
        (processClipboardContent (initState defaultSettings) "a" "i1" 1).1
        ["i1", "zz"]).1).clip.items.length = 0 ∧
    (handleDeleteMultipleItems
        (processClipboardContent (initState defaultSettings) "a" "i1" 1).1
        ["i1", "zz"]).2.1.deletedCount = 2 := by
  refine ⟨by decide, by decide, by decide⟩

/-- Claim C8, amended.  Only the committing text capture broadcasts under
multiple (three) distinct message identifiers.  A committing image capture,
a non-trivial `moveToTop` and a non-empty `deleteMany` notify under the
single identifier `clipboardDataUpdated`; `toggleFavorite`, `delete`,
`add` and `clear` complete successfully without sending any broadcast
message at all. -/
theorem C8_theorem :
    (∀ (st : EngineState) (c newId : String) (now : Nat) (it : Item),
      (processClipboardContent st c newId now).2.1 = CaptureOutcome.committed it →
      (processClipboardContent st c newId now).2.2 =
        ["clipboardDataUpdated", "clipboardUpdated", "refreshClipboardData"]) ∧
    (∀ (st : EngineState) (u newId : String) (now : Nat) (it : Item),
      (processClipboardImage st u newId now).2.1 = CaptureOutcome.committed it →
      (processClipboardImage st u newId now).2.2 = ["clipboardDataUpdated"]) ∧
    (∀ (st : EngineState) (itemId : String),
      (handleToggleFavorite st itemId).2.2 = []) ∧
    (∀ (st : EngineState) (itemId : String),
      (handleDeleteItem st itemId).2.2 = []) ∧
    (∀ (st : EngineState) (c : String) (typ : Option Category) (fav : Bool)
        (newId : String) (now : Nat),
      (handleAddNewItem st c typ fav newId now).2.2 = []) ∧
    (∀ st : EngineState, (handleClearAll st).2.2 = []) ∧
    (∀ (st : EngineState) (itemIds : List String), itemIds ≠ [] →
      (handleDeleteMultipleItems st itemIds).2.2 = ["clipboardDataUpdated"]) ∧
    (∀ (st : EngineState) (itemId : String) (now : Nat),
      (handleMoveItemToTop st itemId now).2.2 = [] ∨
      (handleMoveItemToTop st itemId now).2.2 = ["clipboardDataUpdated"]) := by
  refine ⟨?_, ?_, ?_, ?_, ?_, ?_, ?_, ?_⟩
  · intro st c newId now it
    unfold processClipboardContent
    split_ifs with h1 h2 h3
    · intro hc; exact absurd hc (by simp)
    · intro hc; exact absurd hc (by simp)
    · intro hc; exact absurd hc (by simp)
    · intro _; rfl
  · intro st u newId now it
    unfold processClipboardImage
    split_ifs with h1 h2 h3
    · intro hc; exact absurd hc (by simp)
    · intro hc; exact absurd hc (by simp)
    · intro hc; exact absurd hc (by simp)
    · intro _; rfl
  · intro st itemId
    unfold handleToggleFavorite
    split <;> rfl
  · intro st itemId; rfl
  · intro st c typ fav newId now; rfl
  · intro st; rfl
  · intro st itemIds h
    unfold handleDeleteMultipleItems
    rw [if_neg (by simpa [List.isEmpty_iff] using h)]
  · intro st itemId now
    unfold handleMoveItemToTop
    split
    · exact Or.inl rfl
    · split
      · exact Or.inl rfl
      · split
        · exact Or.inl rfl
        · exact Or.inr rfl

/-- Witness for C8: a concrete committing capture broadcasts under the three
identifiers. -/
theorem C8_witness :
    (processClipboardContent (initState defaultSettings) "a" "i1" 1).2.2 =
      ["clipboardDataUpdated", "clipboardUpdated", "refreshClipboardData"] :=
  C8_theorem.1 (initState defaultSettings) "a" "i1" 1
    ⟨"i1", "a", Category.text, 1, false, 1⟩ (by decide)

/-- Counterexample to claim C8 as stated: a `toggleFavorite` on a present id
completes successfully but sends no broadcast message at all — not the
required two distinct identifiers. -/
theorem C8_counterexample :
    (handleToggleFavorite
      (processClipboardContent (initState defaultSettings) "a" "i1" 1).1
      "i1").2.1 = true ∧
    (handleToggleFavorite
      (processClipboardContent (initState defaultSettings) "a" "i1" 1).1
      "i1").2.2 = [] := by
  refine ⟨by decide, by decide⟩

/-- Claim C9, amended.  The staleness recovery exists only in the duplicated
engine variant (`part_004`), whose guard records the start time of the
in-flight check: an entry attempted more than 10000 ms after the recorded
start force-clears the guard and proceeds, an entry within the threshold is
skipped (at most one check in flight), and a free entry takes the guard.  In
the `src/src/background/background.js` variant the guard is a plain boolean
with no staleness recovery: while it is set, every entry is skipped
regardless of elapsed time, so a hung check blocks all future checks (see
the counterexample). -/
theorem C9_theorem :
    (∀ t now : Nat, now - t > 10000 →
      (guardEntryTimed (some t) now).1 = true ∧
      (guardEntryTimed (some t) now).2 = some now) ∧
    (∀ t now : Nat, now - t ≤ 10000 →
      (guardEntryTimed (some t) now).1 = false ∧
      (guardEntryTimed (some t) now).2 = some t) ∧
    (∀ now : Nat, guardEntryTimed none now = (true, some now)) ∧
    (∀ g : Bool, (guardEntryMain g).1 = !g) := by
  refine ⟨?_, ?_, ?_, ?_⟩
  · intro t now h
    simp only [guardEntryTimed]
    rw [if_pos h]
    exact ⟨rfl, rfl⟩
  · intro t now h
    simp only [guardEntryTimed]
    rw [if_neg (by omega)]
    exact ⟨rfl, rfl⟩
  · intro now
    rfl
  · intro g
    cases g <;> rfl

/-- Witness for C9: a check stuck since time 0 is force-cleared by an entry
at time 20000 in the timed-guard variant. -/
theorem C9_witness :
    (guardEntryTimed (some 0) 20000).1 = true ∧
    (guardEntryTimed (some 0) 20000).2 = some 20000 :=
  C9_theorem.1 0 20000 (by decide)

/-- Counterexample to claim C9 as stated: in the
`src/src/background/background.js` variant the guard is a plain boolean.
Even when the in-flight check is far beyond the 10-second threshold
(20000 ms elapsed), the next entry is still skipped and the guard stays
set — there is no force-clear, so a hung read blocks all future checks. -/
theorem C9_counterexample :
    (20000 : Nat) - 0 > 10000 ∧
    (guardEntryMain true).1 = false ∧
    (guardEntryMain true).2 = true := by
  refine ⟨by decide, by decide, by decide⟩

lemma extractFirstById_eq_none {itemId : String} {l : List Item}
    (h : ∀ y ∈ l, y.id ≠ itemId) : extractFirstById itemId l = none := by
  induction l with
  | nil => rfl
  | cons it t ih =>
    unfold extractFirstById
    rw [if_neg (h it (List.mem_cons_self it t)),
      ih (fun y hy => h y (List.mem_cons_of_mem it hy))]

/-- Claim C10, amended.  For an id at index `> 0`, `moveToTop` succeeds,
moves that item (content and category untouched, timestamp set to the
current time) to index 0, leaves every other item unchanged in order, and
notifies; for an absent id it fails and changes nothing.  But for the id of
the item already at index 0 it returns success without doing anything — in
particular the timestamp is NOT refreshed (see the counterexample). -/
theorem C10_theorem :
    (∀ (st : EngineState) (itemId : String) (now : Nat) (it0 : Item)
        (t : List Item),
      st.clip.items = it0 :: t → it0.id = itemId →
      handleMoveItemToTop st itemId now = (st, true, [])) ∧
    (∀ (st : EngineState) (itemId : String) (now : Nat) (it0 : Item)
        (t : List Item) (x : Item) (rest : List Item),
      st.clip.items = it0 :: t → ¬ it0.id = itemId →
      extractFirstById itemId (it0 :: t) = some (x, rest) →
      (handleMoveItemToTop st itemId now).2.1 = true ∧
      ((handleMoveItemToTop st itemId now).1).clip.items =
        ⟨x.id, x.content, x.type, now, x.isFavorite, x.charCount⟩ :: rest ∧
      x.id = itemId ∧
      (∃ l1 l2, it0 :: t = l1 ++ x :: l2 ∧ rest = l1 ++ l2 ∧
        ∀ y ∈ l1, y.id ≠ itemId) ∧
      (handleMoveItemToTop st itemId now).2.2 = ["clipboardDataUpdated"]) ∧
    (∀ (st : EngineState) (itemId : String) (now : Nat),
      (∀ it ∈ st.clip.items, it.id ≠ itemId) →
      handleMoveItemToTop st itemId now = (st, false, [])) := by
  refine ⟨?_, ?_, ?_⟩
  · intro st itemId now it0 t hst hid
    simp [handleMoveItemToTop, hst, hid]
  · intro st itemId now it0 t x rest hst hne hext
    obtain ⟨hxid, l1, l2, hl, hr, hl1⟩ := extractFirstById_spec hext
    refine ⟨?_, ?_, hxid, ⟨l1, l2, hl, hr, hl1⟩, ?_⟩ <;>
      simp [handleMoveItemToTop, hst, hne, hext]
  · intro st itemId now h
    obtain ⟨⟨items, favs⟩, last, sett⟩ := st
    cases items with
    | nil => rfl
    | cons it0 t =>
      have h0 : ¬ it0.id = itemId := h it0 (List.mem_cons_self it0 t)
      have hnone : extractFirstById itemId (it0 :: t) = none :=
        extractFirstById_eq_none (fun y hy => h y hy)
      simp [handleMoveItemToTop, h0, hnone]

/-- Witness for C10: moving an absent id fails and leaves the store
unchanged. -/
theorem C10_witness :
    handleMoveItemToTop
      (processClipboardContent (initState defaultSettings) "a" "i1" 1).1 "zz" 9 =
    ((processClipboardContent (initState defaultSettings) "a" "i1" 1).1,
      false, []) :=
  C10_theorem.2.2
    (processClipboardContent (initState defaultSettings) "a" "i1" 1).1 "zz" 9
    (by decide)

/-- Counterexample to claim C10 as stated: for the item already at index 0,
`moveToTop` reports success but performs no mutation at all — the
`createdAt` timestamp keeps its old value 5 instead of being refreshed to
the current time 99. -/
theorem C10_counterexample :
    (handleMoveItemToTop
      (processClipboardContent (initState defaultSettings) "a" "i1" 5).1
      "i1" 99).2.1 = true ∧
    (handleMoveItemToTop
      (processClipboardContent (initState defaultSettings) "a" "i1" 5).1
      "i1" 99).1 =
      (processClipboardContent (initState defaultSettings) "a" "i1" 5).1 ∧
    ((handleMoveItemToTop
      (processClipboardContent (initState defaultSettings) "a" "i1" 5).1
      "i1" 99).1).clip.items.map (fun it => it.timestamp) = [5] := by
  refine ⟨by decide, by decide, by decide⟩

end ClipboardManager
